import Mathlib

/-!
Shallow embedding of the koishi-plugin-teamspeak session-management layer
(`src/index.ts`).

The TypeScript module keeps two mutable variables, `instance` (the session
handle, `TeamSpeak | null`) and `connecting` (the busy guard), and builds
`withTimeout`, `checkConnection`, `reconnect`, `connect`, `disconnected`,
`executeWithRetry` and a `ts` command on top of them.  Execution is
single-threaded and cooperative, so each of these functions is embedded as a
pure state-passing function.  The nondeterminism of the network is captured by
an environment `Env` of oracles: the outcome of the k-th `TeamSpeak.connect`
attempt, of the k-th `whoami` health probe, and of the k-th invocation of the
caller-supplied operation.  A `withTimeout` failure is one of the failure
outcomes the oracle may report (the oracles range over everything the awaited
expression can do, timeout included).  Every function additionally returns the
list of observable events it performs, so that counting attempts, delays and
reconnection triggers is possible in theorems.
-/

namespace Teamspeak

/-- Observable events performed by the embedded functions. -/
inductive Ev where
  | reconnectCall
  | setGuard
  | clearGuard
  | teardown
  | connectAttempt
  | delay (ms : Nat)
  | whoamiCall
  | opCall
  deriving DecidableEq, Repr

/-- A live session handle: an identity plus the event listeners bound on it
(`instance.on(...)` calls). -/
structure Session where
  id : Nat
  listeners : List String
  deriving DecidableEq, Repr

/-- The two mutable module variables of `apply`:
`let instance: TeamSpeak | null` and `let connecting = false`.
(`instance` is a Lean keyword, hence the field name `inst`.) -/
structure TsState where
  inst : Option Session
  connecting : Bool
  deriving DecidableEq, Repr

/-- The configuration fields the session layer reads. -/
structure Config where
  reconnectAttempts : Nat
  reconnectTimeout : Nat
  queryTimeout : Nat
  debug : Bool
  deriving DecidableEq, Repr

/-- Oracles for the asynchronous collaborators.  `connectOk k` is the outcome
of the k-th `withTimeout(TeamSpeak.connect(...))`: `some sid` is a fresh
session identity, `none` is any failure (connection error or timeout).
`whoamiOk k` is whether the k-th `withTimeout(instance.whoami())` succeeds.
`opResult k` is the outcome of the k-th `withTimeout(operation(), ...)`:
`.ok` with the resolved value or `.error` with the thrown error's message
(the message is `"操作超时"` when the deadline elapsed first). -/
structure Env where
  connectOk : Nat → Option Nat
  whoamiOk : Nat → Bool
  opResult : Nat → Except String String

/-- The whole mutable world: the module state plus the cursors into the three
oracles (how many connect attempts, whoami probes and operation invocations
have happened so far). -/
structure World where
  st : TsState
  connectIdx : Nat
  whoamiIdx : Nat
  opIdx : Nat
  deriving DecidableEq, Repr

/-- The listeners `reconnect` binds on a freshly connected instance
(lines 150-158): `ready`, `clientconnect`, `error`, `close`, and `debug`
when `config.debug` is set. -/
def boundListeners (cfg : Config) : List String :=
  ["ready", "clientconnect", "error", "close"] ++ if cfg.debug then ["debug"] else []

/-- A successful connect attempt followed by the event rebinding. -/
def bindEvents (cfg : Config) (sid : Nat) : Session :=
  { id := sid, listeners := boundListeners cfg }

/-! ## withTimeout (lines 65-79)

`withTimeout` races the wrapped promise against a `setTimeout` timer.  The
promise's behaviour is embedded as a settle time `t` together with its
outcome; the race is decided by comparing `t` with the deadline.  The result
is the raced outcome paired with whether the timer is still pending when
`withTimeout` returns. -/

/-- Embedding of `withTimeout(promise, timeout, errorMessage)`.  The promise
is `(t, outcome)`: it settles at time `t` with `outcome`.  After
`setTimeout` the timer is pending; if the promise settles strictly before the
deadline it wins the `Promise.race` and `clearTimeout` is called on both the
return path (line 73) and the catch path (line 76), so the timer is no longer
pending; otherwise the timer fires (hence stops pending), the race rejects
with `Error(errorMessage)`, and the catch path rethrows it.  The second
component of the result is whether a timer is still pending on exit. -/
def withTimeout {α : Type} (t : Nat) (outcome : Except String α)
    (timeout : Nat) (errorMessage : String) : Except String α × Bool :=
  if t < timeout then
    match outcome with
    | .ok v => (.ok v, false)
    | .error e => (.error e, false)
  else
    (.error errorMessage, false)

/-! ## reconnect (lines 107-183) -/

/-- The `while (attempts < config.reconnectAttempts)` loop of `reconnect`
(lines 126-171), in fuel style: the caller passes
`fuel = cfg.reconnectAttempts - attempts`, so `fuel = 0` is exactly the
loop-exit condition `attempts ≥ config.reconnectAttempts`.  `attempts` is the
source's counter (already incremented entries count), `k` the cursor into
`env.connectOk`.  Each iteration increments `attempts`, performs one connect
attempt; on success it binds the listeners and returns the new session; on
failure it sleeps 2000 ms when `attempts < config.reconnectAttempts` still
holds (line 166) and iterates.  Returns the session (or `none` after
exhaustion), the new connect cursor, and the events performed. -/
def reconnectLoop (cfg : Config) (env : Env) :
    Nat → Nat → Nat → Option Session × Nat × List Ev
  | 0, _, k => (none, k, [])
  | fuel + 1, attempts, k =>
    match env.connectOk k with
    | some sid => (some (bindEvents cfg sid), k + 1, [.connectAttempt])
    | none =>
      if attempts + 1 < cfg.reconnectAttempts then
        let r := reconnectLoop cfg env fuel (attempts + 1) (k + 1)
        (r.1, r.2.1, .connectAttempt :: .delay 2000 :: r.2.2)
      else
        (none, k + 1, [.connectAttempt])

/-- The teardown of the existing connection at the top of `reconnect`
(lines 115-123): emits a `teardown` event exactly when a handle exists. -/
def teardownEvents (st : TsState) : List Ev :=
  match st.inst with
  | some _ => [.teardown]
  | none => []

/-- Embedding of `reconnect` (lines 107-183).  If the busy guard is set it
returns `false` at once (line 108).  Otherwise it sets the guard, tears down
any existing handle (`removeAllListeners`/`quit`, errors there are caught,
then `instance = null`), runs the bounded attempt loop, and on every exit
path — success, exhaustion, and the outer catch — clears the guard before
returning.  The returned triple is (result, new world, events). -/
def reconnect (cfg : Config) (env : Env) (w : World) : Bool × World × List Ev :=
  if w.st.connecting then
    (false, w, [.reconnectCall])
  else
    let r := reconnectLoop cfg env cfg.reconnectAttempts 0 w.connectIdx
    (r.1.isSome,
     { w with st := { inst := r.1, connecting := false }, connectIdx := r.2.1 },
     .reconnectCall :: .setGuard :: (teardownEvents w.st ++ r.2.2 ++ [.clearGuard]))

/-! ## checkConnection (lines 82-105) -/

/-- Embedding of `checkConnection`.  If the guard is set, returns `false`
without probing.  If there is no handle, the result is `reconnect()`.
Otherwise it probes `whoami` under `withTimeout(·, queryTimeout, ...)`: on
success it returns `true`; on any failure it returns `reconnect()`. -/
def checkConnection (cfg : Config) (env : Env) (w : World) : Bool × World × List Ev :=
  if w.st.connecting then
    (false, w, [])
  else
    match w.st.inst with
    | none => reconnect cfg env w
    | some _ =>
      if env.whoamiOk w.whoamiIdx then
        (true, { w with whoamiIdx := w.whoamiIdx + 1 }, [.whoamiCall])
      else
        let r := reconnect cfg env { w with whoamiIdx := w.whoamiIdx + 1 }
        (r.1, r.2.1, .whoamiCall :: r.2.2)

/-! ## connect / disconnected (lines 185-199) -/

/-- Embedding of `connect` (lines 185-192): it awaits `reconnect()` inside a
try/catch; since the embedded `reconnect` is total (its own outer catch
already converts every failure into `false`), the catch path is dead and
`connect` coincides with `reconnect`. -/
def connect (cfg : Config) (env : Env) (w : World) : Bool × World × List Ev :=
  reconnect cfg env w

/-- Embedding of `disconnected` (lines 194-199): a no-op when no handle
exists, otherwise `removeAllListeners`/`quit` (the teardown event) and
`instance = null`. -/
def disconnected (st : TsState) : TsState × List Ev :=
  match st.inst with
  | none => (st, [])
  | some _ => ({ st with inst := none }, [.teardown])

/-! ## executeWithRetry (lines 202-237) -/

/-- The tagged result `{success: true, data}` / `{success: false, error}`. -/
inductive RetryResult where
  | success (data : String)
  | failure (error : String)
  deriving DecidableEq, Repr

/-- The fixed failure reason returned when the pre-flight connection check
fails with no retries remaining (line 210). -/
def cannotConnectMsg : String := "无法连接到TeamSpeak服务器"

/-- The `while (retries <= maxRetries)` loop of `executeWithRetry`
(lines 205-236), in fuel style with `remaining = maxRetries - retries`; the
source's `retries >= maxRetries` test is exactly `remaining = 0`, and each
`retries++; continue` is a recursive call with `remaining - 1`.  Per
iteration: run `checkConnection`; if it fails, either return the fixed
cannot-connect failure (no retries remaining) or continue.  If it succeeds,
invoke the operation under `withTimeout`; a resolved value is returned as
`success`; a thrown error is caught — with no retries remaining its message
becomes the `failure` reason, otherwise `reconnect()` is awaited and the
loop continues.  (`checkConnection` and `reconnect` never throw, so the
`catch` can only see the operation's error.) -/
def executeWithRetryGo (cfg : Config) (env : Env) :
    Nat → Nat → World → RetryResult × World × List Ev
  | remaining, retries, w =>
    let c := checkConnection cfg env w
    if c.1 then
      match env.opResult c.2.1.opIdx with
      | .ok v =>
        (.success v, { c.2.1 with opIdx := c.2.1.opIdx + 1 }, c.2.2 ++ [.opCall])
      | .error e =>
        match remaining with
        | 0 => (.failure e, { c.2.1 with opIdx := c.2.1.opIdx + 1 }, c.2.2 ++ [.opCall])
        | fuel + 1 =>
          let r := reconnect cfg env { c.2.1 with opIdx := c.2.1.opIdx + 1 }
          let rest := executeWithRetryGo cfg env fuel (retries + 1) r.2.1
          (rest.1, rest.2.1, c.2.2 ++ [.opCall] ++ r.2.2 ++ rest.2.2)
    else
      match remaining with
      | 0 => (.failure cannotConnectMsg, c.2.1, c.2.2)
      | fuel + 1 =>
        let rest := executeWithRetryGo cfg env fuel (retries + 1) c.2.1
        (rest.1, rest.2.1, c.2.2 ++ rest.2.2)

/-- Embedding of `executeWithRetry(operation, maxRetries = 2)`. -/
def executeWithRetry (cfg : Config) (env : Env) (w : World)
    (maxRetries : Nat := 2) : RetryResult × World × List Ev :=
  executeWithRetryGo cfg env maxRetries 0 w

/-! ## The `ts` command's operation (lines 245-270)

The command's closure lists the regular clients, groups their nicknames by
channel, sorts the channels by display `order`, and renders the report.  The
collaborator calls are embedded as data: `clients` is what
`instance.clientList({clientType: Regular})` resolves to, and
`getChannelById` maps a channel id to its `TeamSpeakChannel` (the library
resolves a given `cid` to one channel, so the JS `Map` keyed by the channel
object is embedded as a map keyed by the channel value). -/

/-- A regular client as the operation reads it: `nickname` and channel `cid`. -/
structure TsClient where
  nickname : String
  cid : Nat
  deriving DecidableEq, Repr

/-- A channel as the operation reads it: `name` and display `order`
(plus its id). -/
structure TsChannel where
  cid : Nat
  name : String
  order : Nat
  deriving DecidableEq, Repr

/-- Embedding of
`channelMap.set(channel, (channelMap.get(channel) || []).concat([nickname]))`
on an insertion-ordered map: update the existing entry in place, or append a
new one. -/
def channelMapSet (m : List (TsChannel × List String)) (ch : TsChannel)
    (nick : String) : List (TsChannel × List String) :=
  match m with
  | [] => [(ch, [nick])]
  | (c, ns) :: rest =>
    if c = ch then (c, ns ++ [nick]) :: rest
    else (c, ns) :: channelMapSet rest ch nick

/-- The `for (const c of clients)` loop (lines 253-259) that fills
`channelMap`. -/
def buildChannelMap (getChannelById : Nat → TsChannel) (clients : List TsClient) :
    List (TsChannel × List String) :=
  clients.foldl (fun m c => channelMapSet m (getChannelById c.cid) c.nickname) []

/-- Embedding of `channelArray.sort((a, b) => a.order - b.order)`
(line 262): a stable ascending sort by `order`, applied to the map's entries
(the keys are pairwise distinct, so sorting the entries is sorting the keys
and carrying each key's value along). -/
def sortChannels (m : List (TsChannel × List String)) :
    List (TsChannel × List String) :=
  m.mergeSort (fun a b => a.1.order ≤ b.1.order)

/-- One channel's block of the report (lines 266-267): the channel name,
a colon and CRLF, then four spaces, the comma-joined nicknames and CRLF. -/
def channelBlock (p : TsChannel × List String) : String :=
  p.1.name ++ ":\r\n" ++ "    " ++ String.intercalate ", " p.2 ++ "\r\n"

/-- The `message` accumulation loop (lines 264-268). -/
def renderChannels (m : List (TsChannel × List String)) : String :=
  m.foldl (fun msg p => msg ++ channelBlock p) ""

/-- The fixed reply when `clientList` is empty (line 250). -/
def nobodyMsg : String := "没有人."

/-- Embedding of the operation the `ts` command passes to
`executeWithRetry` (lines 245-270). -/
def listClientsReport (getChannelById : Nat → TsChannel)
    (clients : List TsClient) : String :=
  if clients.isEmpty then nobodyMsg
  else renderChannels (sortChannels (buildChannelMap getChannelById clients))

/-! ## Descriptive devices and concrete scenarios used in the theorems -/

/-- The event pattern of a reconnection loop that fails `f` times and then
succeeds: a failed attempt is followed by the fixed 2000 ms sleep, and the
final (successful) attempt is followed by no delay. -/
def attemptTrace : Nat → List Ev
  | 0 => [.connectAttempt]
  | f + 1 => .connectAttempt :: .delay 2000 :: attemptTrace f

/-- A configuration with the schema's defaults
(`reconnectAttempts = 3`, `reconnectTimeout = 10000`, `queryTimeout = 3000`). -/
def cfgA : Config :=
  { reconnectAttempts := 3, reconnectTimeout := 10000, queryTimeout := 3000, debug := false }

/-- A live session with the listeners bound, as after a successful connect. -/
def sessionA : Session := { id := 0, listeners := boundListeners cfgA }

/-- A benign environment: every connect attempt yields a fresh session
(identity 1), every probe and operation succeeds. -/
def envA : Env :=
  { connectOk := fun _ => some 1, whoamiOk := fun _ => true,
    opResult := fun _ => .ok "ok" }

/-- An environment in which connecting always succeeds but every health
probe and every operation invocation fails. -/
def envFail : Env :=
  { connectOk := fun k => some (k + 1), whoamiOk := fun _ => false,
    opResult := fun _ => .error "boom" }

/-- A fully dead environment: every connect attempt, probe and operation
fails. -/
def envDown : Env :=
  { connectOk := fun _ => none, whoamiOk := fun _ => false,
    opResult := fun _ => .error "boom" }

/-- An environment whose connect attempts fail once and then succeed
(the second attempt, cursor 1, yields session 5). -/
def envC3 : Env :=
  { connectOk := fun k => if k = 1 then some 5 else none,
    whoamiOk := fun _ => true, opResult := fun _ => .ok "" }

/-- A world holding a live session, idle (busy guard clear). -/
def wConnected : World :=
  { st := { inst := some sessionA, connecting := false },
    connectIdx := 0, whoamiIdx := 0, opIdx := 0 }

/-- A world in the middle of a reconnection cycle (busy guard set). -/
def wBusy : World :=
  { st := { inst := none, connecting := true },
    connectIdx := 0, whoamiIdx := 0, opIdx := 0 }

/-- The channel lookup of the spec's scenario: channel 1 is `Lobby`
(order 0), channel 2 is `AFK` (order 1). -/
def demoChannel : Nat → TsChannel := fun cid =>
  if cid = 1 then { cid := 1, name := "Lobby", order := 0 }
  else { cid := 2, name := "AFK", order := 1 }

/-- The client listing of the spec's scenario: Alice and Bob in channel 1,
Carol in channel 2. -/
def demoClients : List TsClient :=
  [{ nickname := "Alice", cid := 1 }, { nickname := "Bob", cid := 1 },
   { nickname := "Carol", cid := 2 }]

end Teamspeak

namespace Teamspeak

/-! ## Helper lemmas -/

/-- When the busy guard is set, `reconnect` is the one-line early return of
line 108. -/
theorem reconnect_busy (cfg : Config) (env : Env) (w : World)
    (h : w.st.connecting = true) :
    reconnect cfg env w = (false, w, [.reconnectCall]) := by
  simp [reconnect, h]

/-- When the busy guard is clear, `reconnect` unfolds to the teardown, the
attempt loop, and the guard-clearing exit. -/
theorem reconnect_not_busy (cfg : Config) (env : Env) (w : World)
    (h : w.st.connecting = false) :
    reconnect cfg env w =
      ((reconnectLoop cfg env cfg.reconnectAttempts 0 w.connectIdx).1.isSome,
       { w with
          st := { inst := (reconnectLoop cfg env cfg.reconnectAttempts 0 w.connectIdx).1,
                  connecting := false },
          connectIdx := (reconnectLoop cfg env cfg.reconnectAttempts 0 w.connectIdx).2.1 },
       .reconnectCall :: .setGuard ::
         (teardownEvents w.st ++
          (reconnectLoop cfg env cfg.reconnectAttempts 0 w.connectIdx).2.2 ++
          [.clearGuard])) := by
  simp [reconnect, h]

/-- Every event the attempt loop emits is a connect attempt or the fixed
2000 ms sleep. -/
theorem reconnectLoop_mem (cfg : Config) (env : Env) :
    ∀ fuel attempts k x, x ∈ (reconnectLoop cfg env fuel attempts k).2.2 →
      x = Ev.connectAttempt ∨ x = Ev.delay 2000 := by
  intro fuel
  induction fuel with
  | zero => simp [reconnectLoop]
  | succ f ih =>
    intro attempts k x hx
    simp only [reconnectLoop] at hx
    cases hconn : env.connectOk k with
    | some sid => rw [hconn] at hx; simp at hx; simp [hx]
    | none =>
      rw [hconn] at hx
      by_cases hlt : attempts + 1 < cfg.reconnectAttempts
      · simp [hlt] at hx
        rcases hx with hx | hx | hx
        · simp [hx]
        · simp [hx]
        · exact ih (attempts + 1) (k + 1) x hx
      · simp [hlt] at hx; simp [hx]

/-- The attempt loop emits no event other than attempts and sleeps; in
particular no `reconnectCall`, `opCall` or `teardown`. -/
theorem reconnectLoop_count_eq_zero (cfg : Config) (env : Env)
    (fuel attempts k : Nat) (x : Ev)
    (hx : x ≠ Ev.connectAttempt) (hx2 : x ≠ Ev.delay 2000) :
    (reconnectLoop cfg env fuel attempts k).2.2.count x = 0 := by
  rw [List.count_eq_zero]
  intro hmem
  rcases reconnectLoop_mem cfg env fuel attempts k x hmem with h | h
  · exact hx h
  · exact hx2 h

/-- One call to `reconnect` emits exactly one `reconnectCall` event. -/
theorem reconnect_count_reconnectCall (cfg : Config) (env : Env) (w : World) :
    (reconnect cfg env w).2.2.count Ev.reconnectCall = 1 := by
  by_cases h : w.st.connecting
  · rw [reconnect_busy cfg env w h]; rfl
  · rw [reconnect_not_busy cfg env w (by simpa using h)]
    have hloop := reconnectLoop_count_eq_zero cfg env cfg.reconnectAttempts 0
      w.connectIdx Ev.reconnectCall (by decide) (by decide)
    cases hinst : w.st.inst <;>
      simp [teardownEvents, hinst, List.count_cons, List.count_append, hloop]

/-- The function `reconnect` never invokes the caller's operation. -/
theorem reconnect_count_opCall (cfg : Config) (env : Env) (w : World) :
    (reconnect cfg env w).2.2.count Ev.opCall = 0 := by
  by_cases h : w.st.connecting
  · rw [reconnect_busy cfg env w h]; rfl
  · rw [reconnect_not_busy cfg env w (by simpa using h)]
    have hloop := reconnectLoop_count_eq_zero cfg env cfg.reconnectAttempts 0
      w.connectIdx Ev.opCall (by decide) (by decide)
    cases hinst : w.st.inst <;>
      simp [teardownEvents, hinst, List.count_cons, List.count_append, hloop]

/-- The function `reconnect` does not move the operation cursor. -/
theorem reconnect_opIdx (cfg : Config) (env : Env) (w : World) :
    (reconnect cfg env w).2.1.opIdx = w.opIdx := by
  by_cases h : w.st.connecting
  · rw [reconnect_busy cfg env w h]
  · rw [reconnect_not_busy cfg env w (by simpa using h)]

/-- The function `checkConnection` triggers `reconnect` at most once. -/
theorem checkConnection_count_reconnectCall (cfg : Config) (env : Env) (w : World) :
    (checkConnection cfg env w).2.2.count Ev.reconnectCall ≤ 1 := by
  by_cases h : w.st.connecting
  · simp [checkConnection, h]
  · simp only [checkConnection, h, if_neg, Bool.false_eq_true, if_false]
    cases w.st.inst with
    | none => simpa using Nat.le_of_eq (reconnect_count_reconnectCall cfg env w)
    | some s =>
      by_cases hwho : env.whoamiOk w.whoamiIdx
      · simp [hwho]
      · simp only [hwho, Bool.false_eq_true, if_false, List.count_cons]
        simp [reconnect_count_reconnectCall]

/-- The function `checkConnection` never invokes the caller's operation. -/
theorem checkConnection_count_opCall (cfg : Config) (env : Env) (w : World) :
    (checkConnection cfg env w).2.2.count Ev.opCall = 0 := by
  by_cases h : w.st.connecting
  · simp [checkConnection, h]
  · simp only [checkConnection, h, Bool.false_eq_true, if_false]
    cases w.st.inst with
    | none => exact reconnect_count_opCall cfg env w
    | some s =>
      by_cases hwho : env.whoamiOk w.whoamiIdx
      · simp [hwho]
      · simp only [hwho, Bool.false_eq_true, if_false, List.count_cons]
        simp [reconnect_count_opCall]

/-- The function `checkConnection` does not move the operation cursor. -/
theorem checkConnection_opIdx (cfg : Config) (env : Env) (w : World) :
    (checkConnection cfg env w).2.1.opIdx = w.opIdx := by
  by_cases h : w.st.connecting
  · simp [checkConnection, h]
  · simp only [checkConnection, h, Bool.false_eq_true, if_false]
    cases w.st.inst with
    | none => exact reconnect_opIdx cfg env w
    | some s =>
      by_cases hwho : env.whoamiOk w.whoamiIdx
      · simp [hwho]
      · simp only [hwho, Bool.false_eq_true, if_false]
        exact reconnect_opIdx cfg env _

/-! ## Claim theorems -/

/-- C2: for every wrapped promise, deadline and message, `withTimeout`
returns the promise's value when the promise settles strictly before the
deadline (and no timer is left pending), and when the deadline elapses first
it rejects with an error carrying exactly the caller-supplied message, with
no timer pending and the wrapped operation's eventual outcome discarded
without effect (the result is independent of that outcome). -/
theorem withTimeout_deadline_race {α : Type} (t timeout : Nat)
    (outcome : Except String α) (msg : String) :
    (∀ v, outcome = .ok v → t < timeout →
      withTimeout t outcome timeout msg = (.ok v, false)) ∧
    (timeout < t →
      withTimeout t outcome timeout msg = (.error msg, false) ∧
      ∀ outcome2 : Except String α,
        withTimeout t outcome timeout msg = withTimeout t outcome2 timeout msg) := by
  constructor
  · intro v hv ht
    simp [withTimeout, ht, hv]
  · intro ht
    have hnot : ¬ t < timeout := by omega
    constructor
    · simp [withTimeout, hnot]
    · intro outcome2
      simp [withTimeout, hnot]

/-- Closed instance of `withTimeout_deadline_race`: a promise resolving with
`42` at time 1 against deadline 5 wins, and a promise settling at time 7
against deadline 5 loses to the timer. -/
theorem withTimeout_deadline_race_witness :
    withTimeout 1 (Except.ok (42 : Nat)) 5 "m" = (.ok 42, false) ∧
    withTimeout 7 (Except.ok (0 : Nat)) 5 "Connection check timed out" =
      (.error "Connection check timed out", false) := by
  refine ⟨(withTimeout_deadline_race 1 5 (Except.ok 42) "m").1 42 rfl (by decide), ?_⟩
  exact ((withTimeout_deadline_race 7 5 (Except.ok 0) "Connection check timed out").2
    (by decide)).1

/-- C10: if the wrapped promise rejects strictly before the deadline,
`withTimeout` propagates that same error unchanged (not converted into the
timeout error), and the timer is cancelled on that path too. -/
theorem withTimeout_propagates_error {α : Type} (t timeout : Nat)
    (e msg : String) (h : t < timeout) :
    withTimeout (α := α) t (.error e) timeout msg = (.error e, false) := by
  simp [withTimeout, h]

/-- Closed instance of `withTimeout_propagates_error` at time 1,
deadline 5. -/
theorem withTimeout_propagates_error_witness :
    withTimeout (α := Nat) 1 (.error "boom") 5 "操作超时" = (.error "boom", false) :=
  withTimeout_propagates_error 1 5 "boom" "操作超时" (by decide)

/-- C5: `reconnect` invoked while the busy guard is set returns failure
immediately — the world (session handle, connect cursor, all counters) is
unchanged and the event list records no teardown and no connect attempt. -/
theorem reconnect_while_busy (cfg : Config) (env : Env) (w : World)
    (h : w.st.connecting = true) :
    reconnect cfg env w = (false, w, [.reconnectCall]) :=
  reconnect_busy cfg env w h

/-- Closed instance of `reconnect_while_busy` on a busy world. -/
theorem reconnect_while_busy_witness :
    reconnect cfgA envA wBusy = (false, wBusy, [.reconnectCall]) :=
  reconnect_while_busy cfgA envA wBusy rfl

/-- C4: entered with the busy guard clear, `reconnect` sets the guard before
any teardown or connect attempt (the `setGuard` event is the first event
after the call marker), and on every exit path the guard is clear again: the
final world has `connecting = false` and the last event is `clearGuard`. -/
theorem reconnect_guard_no_leak (cfg : Config) (env : Env) (w : World)
    (h : w.st.connecting = false) :
    (reconnect cfg env w).2.1.st.connecting = false ∧
    (∃ rest, (reconnect cfg env w).2.2 = .reconnectCall :: .setGuard :: rest) ∧
    (reconnect cfg env w).2.2.getLast? = some Ev.clearGuard := by
  rw [reconnect_not_busy cfg env w h]
  refine ⟨rfl, ⟨_, rfl⟩, ?_⟩
  have hassoc : Ev.reconnectCall :: Ev.setGuard ::
      (teardownEvents w.st ++
        (reconnectLoop cfg env cfg.reconnectAttempts 0 w.connectIdx).2.2 ++
        [Ev.clearGuard]) =
      (Ev.reconnectCall :: Ev.setGuard ::
        (teardownEvents w.st ++
          (reconnectLoop cfg env cfg.reconnectAttempts 0 w.connectIdx).2.2)) ++
      [Ev.clearGuard] := by
    simp
  rw [hassoc]
  exact List.getLast?_concat _

/-- Closed instance of `reconnect_guard_no_leak` on the idle connected
world. -/
theorem reconnect_guard_no_leak_witness :
    (reconnect cfgA envA wConnected).2.1.st.connecting = false ∧
    (∃ rest, (reconnect cfgA envA wConnected).2.2 =
      .reconnectCall :: .setGuard :: rest) ∧
    (reconnect cfgA envA wConnected).2.2.getLast? = some Ev.clearGuard :=
  reconnect_guard_no_leak cfgA envA wConnected rfl

/-- The attempt loop on an oracle that fails `F` times and then yields
session `sid`: provided `F + 1 ≤ fuel` and the fuel is consistent with the
source's loop bound (`attempts + fuel = reconnectAttempts`), the loop
returns the freshly bound session, advances the connect cursor by `F + 1`,
and its event list is `attemptTrace F` (a 2000 ms sleep between consecutive
failed attempts, none after the successful one). -/
theorem reconnectLoop_fails_then_succeeds (cfg : Config) (env : Env) (sid : Nat) :
    ∀ F fuel attempts k, F + 1 ≤ fuel → attempts + fuel = cfg.reconnectAttempts →
    (∀ j, j < F → env.connectOk (k + j) = none) →
    env.connectOk (k + F) = some sid →
    reconnectLoop cfg env fuel attempts k =
      (some (bindEvents cfg sid), k + F + 1, attemptTrace F) := by
  intro F
  induction F with
  | zero =>
    intro fuel attempts k hfuel hsum hfail hsucc
    match fuel, hfuel with
    | f + 1, _ =>
      simp only [Nat.add_zero] at hsucc
      simp [reconnectLoop, hsucc, attemptTrace]
  | succ F ih =>
    intro fuel attempts k hfuel hsum hfail hsucc
    match fuel, hfuel with
    | f + 1, hfuel =>
      have hconn : env.connectOk k = none := by
        have := hfail 0 (by omega)
        simpa using this
      have hguard : attempts + 1 < cfg.reconnectAttempts := by omega
      have hrec := ih f (attempts + 1) (k + 1) (by omega) (by omega)
        (fun j hj => by
          have h2 := hfail (j + 1) (by omega)
          rwa [show k + (j + 1) = k + 1 + j by omega] at h2)
        (by rwa [show k + 1 + F = k + (F + 1) by omega])
      simp only [reconnectLoop, hconn, hguard, if_true, hrec, attemptTrace,
        Prod.mk.injEq]
      exact ⟨trivial, by omega, trivial⟩

/-- C3: starting idle (busy guard clear), if the connect oracle fails on the
first `N - 1` attempts and yields session `sid` on the `N`-th, with
`1 ≤ N ≤ reconnectAttempts`, then `reconnect` returns success after exactly
`N` connect attempts, installs the new session with the event subscriptions
rebound on it, leaves the busy guard clear, and its event list shows the
fixed 2000 ms delay between consecutive failed attempts and no delay after
the final attempt. -/
theorem reconnect_succeeds_on_nth (cfg : Config) (env : Env) (w : World)
    (N sid : Nat) (h0 : w.st.connecting = false) (h1 : 1 ≤ N)
    (h2 : N ≤ cfg.reconnectAttempts)
    (hfail : ∀ j, j < N - 1 → env.connectOk (w.connectIdx + j) = none)
    (hsucc : env.connectOk (w.connectIdx + (N - 1)) = some sid) :
    reconnect cfg env w =
      (true,
       { w with
          st := { inst := some (bindEvents cfg sid), connecting := false },
          connectIdx := w.connectIdx + N },
       .reconnectCall :: .setGuard ::
         (teardownEvents w.st ++ attemptTrace (N - 1) ++ [.clearGuard])) := by
  match N, h1 with
  | F + 1, _ =>
    simp only [Nat.add_sub_cancel] at hfail hsucc ⊢
    have hloop := reconnectLoop_fails_then_succeeds cfg env sid F
      cfg.reconnectAttempts 0 w.connectIdx (by omega) (by omega) hfail hsucc
    rw [reconnect_not_busy cfg env w h0, hloop]
    simp only [Option.isSome_some, Prod.mk.injEq]
    refine ⟨trivial, ?_, trivial⟩
    have : w.connectIdx + F + 1 = w.connectIdx + (F + 1) := by omega
    rw [this]

/-- Closed instance of `reconnect_succeeds_on_nth`: with
`reconnectAttempts = 3` and a connect oracle failing once then succeeding,
`reconnect` from the idle connected world succeeds on the second attempt. -/
theorem reconnect_succeeds_on_nth_witness :
    reconnect cfgA envC3 wConnected =
      (true,
       { wConnected with
          st := { inst := some (bindEvents cfgA 5), connecting := false },
          connectIdx := 2 },
       .reconnectCall :: .setGuard ::
         (teardownEvents wConnected.st ++ attemptTrace 1 ++ [.clearGuard])) :=
  reconnect_succeeds_on_nth cfgA envC3 wConnected 2 5 rfl (by decide) (by decide)
    (by decide) (by decide)

/-- C9: at most one non-null session handle exists at any time —
`disconnected` clears the handle to absent and is a no-op when the handle is
already absent, and `reconnect` entered with a live handle tears it down
(the single `teardown` event) before any connect attempt could install a
new one. -/
theorem single_session_handle (cfg : Config) (env : Env) (w : World)
    (st : TsState) :
    (disconnected st).1.inst = none ∧
    (st.inst = none → disconnected st = (st, [])) ∧
    (w.st.connecting = false → w.st.inst.isSome →
      ∃ rest, (reconnect cfg env w).2.2 =
        .reconnectCall :: .setGuard :: .teardown :: rest ∧
        rest.count Ev.teardown = 0) := by
  refine ⟨?_, ?_, ?_⟩
  · cases h : st.inst <;> simp [disconnected, h]
  · intro h; simp [disconnected, h]
  · intro hc hi
    obtain ⟨s, hs⟩ := Option.isSome_iff_exists.mp hi
    rw [reconnect_not_busy cfg env w hc]
    refine ⟨(reconnectLoop cfg env cfg.reconnectAttempts 0 w.connectIdx).2.2 ++
      [Ev.clearGuard], ?_, ?_⟩
    · simp [teardownEvents, hs]
    · have hloop := reconnectLoop_count_eq_zero cfg env cfg.reconnectAttempts 0
        w.connectIdx Ev.teardown (by decide) (by decide)
      simp [List.count_append, hloop]

/-- Closed instance of `single_session_handle`: `disconnected` is a no-op on
the absent-handle state, and `reconnect` from the connected idle world tears
the live handle down exactly once, before any connect attempt. -/
theorem single_session_handle_witness :
    disconnected wBusy.st = (wBusy.st, []) ∧
    (∃ rest, (reconnect cfgA envA wConnected).2.2 =
      .reconnectCall :: .setGuard :: .teardown :: rest ∧
      rest.count Ev.teardown = 0) :=
  ⟨(single_session_handle cfgA envA wConnected wBusy.st).2.1 rfl,
   (single_session_handle cfgA envA wConnected wBusy.st).2.2 rfl rfl⟩

/-- C7 as stated is false on the code: `connect()` delegates unconditionally
to `reconnect`, which tears down a live session and installs a fresh one.
Concretely, from the idle connected world (session handle `sessionA`) with a
connect oracle that immediately yields session 1, `connect` does not leave
the session in place: the handle changes and a `teardown` event occurs. -/
theorem connect_tears_down_live_session :
    (connect cfgA envA wConnected).2.1.st.inst ≠ wConnected.st.inst ∧
    Ev.teardown ∈ (connect cfgA envA wConnected).2.2 := by
  decide

/-- C7 (amended): `connect()` invoked while a reconnection cycle is in
flight returns failure immediately without side effects (the world is
unchanged and no teardown or connect attempt happens); invoked while a live
session exists and the guard is clear it does NOT leave that session in
place — it tears the existing session down before attempting a fresh
connection. -/
theorem connect_busy_noop_else_teardown (cfg : Config) (env : Env) (w : World) :
    (w.st.connecting = true → connect cfg env w = (false, w, [.reconnectCall])) ∧
    (w.st.connecting = false → w.st.inst.isSome →
      ∃ rest, (connect cfg env w).2.2 =
        .reconnectCall :: .setGuard :: .teardown :: rest) := by
  refine ⟨fun h => reconnect_busy cfg env w h, fun hc hi => ?_⟩
  obtain ⟨s, hs⟩ := Option.isSome_iff_exists.mp hi
  rw [show connect cfg env w = reconnect cfg env w from rfl,
    reconnect_not_busy cfg env w hc]
  refine ⟨(reconnectLoop cfg env cfg.reconnectAttempts 0 w.connectIdx).2.2 ++
    [Ev.clearGuard], ?_⟩
  simp [teardownEvents, hs]

/-- Closed instance of `connect_busy_noop_else_teardown` on the busy world
and on the connected idle world. -/
theorem connect_busy_noop_else_teardown_witness :
    connect cfgA envA wBusy = (false, wBusy, [.reconnectCall]) ∧
    (∃ rest, (connect cfgA envA wConnected).2.2 =
      .reconnectCall :: .setGuard :: .teardown :: rest) :=
  ⟨(connect_busy_noop_else_teardown cfgA envA wBusy).1 rfl,
   (connect_busy_noop_else_teardown cfgA envA wConnected).2 rfl rfl⟩

/-- The world after the pre-flight check with the operation cursor advanced
by the one operation invocation (the shape appearing inside
`executeWithRetryGo`). -/
def afterOp (cfg : Config) (env : Env) (w : World) : World :=
  { st := (checkConnection cfg env w).2.1.st,
    connectIdx := (checkConnection cfg env w).2.1.connectIdx,
    whoamiIdx := (checkConnection cfg env w).2.1.whoamiIdx,
    opIdx := (checkConnection cfg env w).2.1.opIdx + 1 }

/-- Each pass of the retry loop invokes the operation at most once, so a run
with `remaining` retries left performs at most `remaining + 1`
invocations. -/
theorem executeWithRetryGo_count_opCall (cfg : Config) (env : Env) :
    ∀ remaining retries w,
      (executeWithRetryGo cfg env remaining retries w).2.2.count Ev.opCall ≤
        remaining + 1 := by
  intro remaining
  induction remaining with
  | zero =>
    intro retries w
    simp only [executeWithRetryGo]
    cases hc : (checkConnection cfg env w).1 with
    | false =>
      simp only [hc, Bool.false_eq_true, if_false]
      simp [checkConnection_count_opCall]
    | true =>
      simp only [hc, if_true]
      cases hop : env.opResult (checkConnection cfg env w).2.1.opIdx with
      | ok v => simp [List.count_append, checkConnection_count_opCall]
      | error e => simp [List.count_append, checkConnection_count_opCall]
  | succ f ih =>
    intro retries w
    simp only [executeWithRetryGo]
    cases hc : (checkConnection cfg env w).1 with
    | false =>
      simp only [hc, Bool.false_eq_true, if_false]
      have h2 := ih (retries + 1) (checkConnection cfg env w).2.1
      simp only [List.count_append, checkConnection_count_opCall]
      omega
    | true =>
      simp only [hc, if_true]
      cases hop : env.opResult (checkConnection cfg env w).2.1.opIdx with
      | ok v =>
        simp [List.count_append, checkConnection_count_opCall]
      | error e =>
        have h1 := checkConnection_count_opCall cfg env w
        have h2 := reconnect_count_opCall cfg env (afterOp cfg env w)
        have h3 := ih (retries + 1) (reconnect cfg env (afterOp cfg env w)).2.1
        simp only [afterOp] at h2 h3
        simp only [List.count_append, List.count_cons, List.count_nil,
          (by decide : (Ev.opCall == Ev.opCall) = true),
          (by decide : (Ev.opCall == Ev.reconnectCall) = false),
          Bool.false_eq_true, if_true, if_false]
        omega

/-- Each pass of the retry loop triggers `reconnect` at most twice (once
from the pre-flight check, once from the failure-recovery branch), and the
final pass at most once, so a run with `remaining` retries left triggers at
most `2 * remaining + 1` reconnection cycles. -/
theorem executeWithRetryGo_count_reconnectCall (cfg : Config) (env : Env) :
    ∀ remaining retries w,
      (executeWithRetryGo cfg env remaining retries w).2.2.count
          Ev.reconnectCall ≤ 2 * remaining + 1 := by
  intro remaining
  induction remaining with
  | zero =>
    intro retries w
    simp only [executeWithRetryGo]
    cases hc : (checkConnection cfg env w).1 with
    | false =>
      simp only [hc, Bool.false_eq_true, if_false]
      have := checkConnection_count_reconnectCall cfg env w
      omega
    | true =>
      simp only [hc, if_true]
      cases hop : env.opResult (checkConnection cfg env w).2.1.opIdx with
      | ok v =>
        have := checkConnection_count_reconnectCall cfg env w
        simp only [List.count_append, List.count_cons, List.count_nil,
          (by decide : (Ev.opCall == Ev.opCall) = true),
          (by decide : (Ev.opCall == Ev.reconnectCall) = false),
          Bool.false_eq_true, if_true, if_false]
        omega
      | error e =>
        have := checkConnection_count_reconnectCall cfg env w
        simp only [List.count_append, List.count_cons, List.count_nil,
          (by decide : (Ev.opCall == Ev.opCall) = true),
          (by decide : (Ev.opCall == Ev.reconnectCall) = false),
          Bool.false_eq_true, if_true, if_false]
        omega
  | succ f ih =>
    intro retries w
    simp only [executeWithRetryGo]
    cases hc : (checkConnection cfg env w).1 with
    | false =>
      simp only [hc, Bool.false_eq_true, if_false]
      have h1 := checkConnection_count_reconnectCall cfg env w
      have h2 := ih (retries + 1) (checkConnection cfg env w).2.1
      simp only [List.count_append]
      omega
    | true =>
      simp only [hc, if_true]
      cases hop : env.opResult (checkConnection cfg env w).2.1.opIdx with
      | ok v =>
        have := checkConnection_count_reconnectCall cfg env w
        simp only [List.count_append, List.count_cons, List.count_nil,
          (by decide : (Ev.opCall == Ev.opCall) = true),
          (by decide : (Ev.opCall == Ev.reconnectCall) = false),
          Bool.false_eq_true, if_true, if_false]
        omega
      | error e =>
        have h1 := checkConnection_count_reconnectCall cfg env w
        have h2 := reconnect_count_reconnectCall cfg env (afterOp cfg env w)
        have h3 := ih (retries + 1) (reconnect cfg env (afterOp cfg env w)).2.1
        simp only [afterOp] at h2 h3
        simp only [List.count_append, List.count_cons, List.count_nil,
          (by decide : (Ev.opCall == Ev.opCall) = true),
          (by decide : (Ev.opCall == Ev.reconnectCall) = false),
          Bool.false_eq_true, if_true, if_false]
        omega

/-- C1 as stated is false on the code: one pass of the retry loop can
trigger `reconnect` twice — once from the pre-flight `checkConnection`
(unhealthy probe) and once from the failure-recovery branch — so a
persistently failing operation with `maxRetries = 1` triggers three
reconnection cycles, exceeding the claimed bound `maxRetries + 1 = 2`.
(The operation-invocation bound does hold: exactly 2 invocations here.) -/
theorem executeWithRetry_reconnect_bound_exceeded :
    (executeWithRetry cfgA envFail wConnected 1).1 = .failure "boom" ∧
    (executeWithRetry cfgA envFail wConnected 1).2.2.count Ev.opCall = 2 ∧
    (executeWithRetry cfgA envFail wConnected 1).2.2.count Ev.reconnectCall = 3 := by
  decide

/-- C1 (amended): for every `maxRetries ≥ 0` and every behaviour of the
network, `executeWithRetry` performs at most `maxRetries + 1` invocations of
the operation and triggers at most `2 * maxRetries + 1` reconnection cycles
(each non-final pass can reconnect once from the pre-flight check and once
from the failure-recovery branch, the final pass only from the pre-flight
check). -/
theorem executeWithRetry_attempt_bounds (cfg : Config) (env : Env) (w : World)
    (maxRetries : Nat) :
    (executeWithRetry cfg env w maxRetries).2.2.count Ev.opCall ≤
      maxRetries + 1 ∧
    (executeWithRetry cfg env w maxRetries).2.2.count Ev.reconnectCall ≤
      2 * maxRetries + 1 :=
  ⟨executeWithRetryGo_count_opCall cfg env maxRetries 0 w,
   executeWithRetryGo_count_reconnectCall cfg env maxRetries 0 w⟩

/-- The retry loop never rewinds the operation cursor. -/
theorem executeWithRetryGo_opIdx_mono (cfg : Config) (env : Env) :
    ∀ remaining retries w,
      w.opIdx ≤ (executeWithRetryGo cfg env remaining retries w).2.1.opIdx := by
  intro remaining
  induction remaining with
  | zero =>
    intro retries w
    simp only [executeWithRetryGo]
    cases hc : (checkConnection cfg env w).1 with
    | false =>
      simp only [hc, Bool.false_eq_true, if_false]
      exact Nat.le_of_eq (checkConnection_opIdx cfg env w).symm
    | true =>
      simp only [hc, if_true]
      cases hop : env.opResult (checkConnection cfg env w).2.1.opIdx with
      | ok v => simp [checkConnection_opIdx cfg env w]
      | error e => simp [checkConnection_opIdx cfg env w]
  | succ f ih =>
    intro retries w
    simp only [executeWithRetryGo]
    cases hc : (checkConnection cfg env w).1 with
    | false =>
      simp only [hc, Bool.false_eq_true, if_false]
      have h1 := checkConnection_opIdx cfg env w
      have h2 := ih (retries + 1) (checkConnection cfg env w).2.1
      omega
    | true =>
      simp only [hc, if_true]
      cases hop : env.opResult (checkConnection cfg env w).2.1.opIdx with
      | ok v => simp [checkConnection_opIdx cfg env w]
      | error e =>
        dsimp only
        have h1 := checkConnection_opIdx cfg env w
        have h2 := reconnect_opIdx cfg env (afterOp cfg env w)
        have h3 := ih (retries + 1) (reconnect cfg env (afterOp cfg env w)).2.1
        simp only [afterOp] at h2 h3
        omega

/-- Characterization of the retry loop's result: a `success` carries a value
some operation invocation actually resolved with, and a `failure` carries
either the fixed cannot-connect message or the error message of the last
operation invocation (the cursor moved, and the entry just before the final
cursor is that error). -/
theorem executeWithRetryGo_result (cfg : Config) (env : Env) :
    ∀ remaining retries w,
      (∀ v, (executeWithRetryGo cfg env remaining retries w).1 = .success v →
        ∃ k, env.opResult k = .ok v) ∧
      (∀ e, (executeWithRetryGo cfg env remaining retries w).1 = .failure e →
        e = cannotConnectMsg ∨
          (w.opIdx < (executeWithRetryGo cfg env remaining retries w).2.1.opIdx ∧
           env.opResult
             ((executeWithRetryGo cfg env remaining retries w).2.1.opIdx - 1) =
             .error e)) := by
  intro remaining
  induction remaining with
  | zero =>
    intro retries w
    simp only [executeWithRetryGo]
    cases hc : (checkConnection cfg env w).1 with
    | false =>
      simp only [hc, Bool.false_eq_true, if_false]
      exact ⟨fun v hv => (nomatch hv), fun e he => by cases he; exact Or.inl rfl⟩
    | true =>
      simp only [hc, if_true]
      cases hop : env.opResult (checkConnection cfg env w).2.1.opIdx with
      | ok v =>
        dsimp only
        refine ⟨fun v2 hv2 => ?_, fun e he => by cases he⟩
        cases hv2
        exact ⟨(checkConnection cfg env w).2.1.opIdx, hop⟩
      | error e =>
        dsimp only
        refine ⟨fun v hv => (nomatch hv), fun e2 he2 => ?_⟩
        cases he2
        refine Or.inr ⟨?_, ?_⟩
        · have h1 := checkConnection_opIdx cfg env w
          omega
        · simpa using hop
  | succ f ih =>
    intro retries w
    simp only [executeWithRetryGo]
    cases hc : (checkConnection cfg env w).1 with
    | false =>
      simp only [hc, Bool.false_eq_true, if_false]
      have h1 := checkConnection_opIdx cfg env w
      have hih := ih (retries + 1) (checkConnection cfg env w).2.1
      refine ⟨hih.1, fun e he => ?_⟩
      rcases hih.2 e he with h | ⟨hlt, hlast⟩
      · exact Or.inl h
      · exact Or.inr ⟨by omega, hlast⟩
    | true =>
      simp only [hc, if_true]
      cases hop : env.opResult (checkConnection cfg env w).2.1.opIdx with
      | ok v =>
        dsimp only
        refine ⟨fun v2 hv2 => ?_, fun e he => by cases he⟩
        cases hv2
        exact ⟨(checkConnection cfg env w).2.1.opIdx, hop⟩
      | error e =>
        dsimp only
        have h1 := checkConnection_opIdx cfg env w
        have h2 := reconnect_opIdx cfg env (afterOp cfg env w)
        have hmono := executeWithRetryGo_opIdx_mono cfg env f (retries + 1)
          (reconnect cfg env (afterOp cfg env w)).2.1
        have hih := ih (retries + 1) (reconnect cfg env (afterOp cfg env w)).2.1
        simp only [afterOp] at h2 hmono hih
        refine ⟨hih.1, fun e2 he2 => ?_⟩
        rcases hih.2 e2 he2 with h | ⟨hlt, hlast⟩
        · exact Or.inl h
        · exact Or.inr ⟨by omega, hlast⟩

/-- C6: `executeWithRetry` always returns a tagged result that is exactly
one of `success`/`failure` (the embedded function is total into the
`RetryResult` sum, so no typed error crosses its boundary); a failure reason
is either the fixed cannot-connect message (reconnection failed with no
retries remaining) or the last operation error's message, and a success
value is one some operation invocation resolved with. -/
theorem executeWithRetry_tagged_result (cfg : Config) (env : Env) (w : World)
    (maxRetries : Nat) :
    ((∃ v, (executeWithRetry cfg env w maxRetries).1 = .success v) ∨
     (∃ e, (executeWithRetry cfg env w maxRetries).1 = .failure e)) ∧
    (∀ v, (executeWithRetry cfg env w maxRetries).1 = .success v →
      ∃ k, env.opResult k = .ok v) ∧
    (∀ e, (executeWithRetry cfg env w maxRetries).1 = .failure e →
      e = cannotConnectMsg ∨
        (w.opIdx < (executeWithRetry cfg env w maxRetries).2.1.opIdx ∧
         env.opResult
           ((executeWithRetry cfg env w maxRetries).2.1.opIdx - 1) =
           .error e)) ∧
    ((checkConnection cfg env w).1 = false → maxRetries = 0 →
      (executeWithRetry cfg env w maxRetries).1 = .failure cannotConnectMsg) := by
  refine ⟨?_, (executeWithRetryGo_result cfg env maxRetries 0 w).1,
    (executeWithRetryGo_result cfg env maxRetries 0 w).2, ?_⟩
  · cases h : (executeWithRetry cfg env w maxRetries).1 with
    | success v => exact Or.inl ⟨v, rfl⟩
    | failure e => exact Or.inr ⟨e, rfl⟩
  · intro hc h0
    subst h0
    simp [executeWithRetry, executeWithRetryGo, hc]

/-- Closed instance of `executeWithRetry_tagged_result`: in the
all-failing environment with `maxRetries = 0` the run returns
`failure "boom"`, and the theorem reports that reason as the last
operation error (not the cannot-connect message). -/
theorem executeWithRetry_tagged_result_witness :
    ("boom" = cannotConnectMsg ∨
      (wConnected.opIdx < (executeWithRetry cfgA envFail wConnected 0).2.1.opIdx ∧
       envFail.opResult
         ((executeWithRetry cfgA envFail wConnected 0).2.1.opIdx - 1) =
         .error "boom")) ∧
    (executeWithRetry cfgA envDown wConnected 0).1 = .failure cannotConnectMsg :=
  ⟨(executeWithRetry_tagged_result cfgA envFail wConnected 0).2.2.1 "boom" rfl,
   (executeWithRetry_tagged_result cfgA envDown wConnected 0).2.2.2
     (by decide) rfl⟩


/-- Folding the string accumulation from any prefix appends the joined
blocks. -/
theorem foldl_append_join : ∀ (l : List String) (s : String),
    l.foldl (fun r a => r ++ a) s = s ++ String.join l := by
  intro l
  induction l with
  | nil => intro s; simp [String.join]
  | cons a l ih =>
    intro s
    have h1 := ih (s ++ a)
    have h2 := ih ("" ++ a)
    simp only [List.foldl_cons, String.join] at *
    rw [h1, h2]
    simp [String.append_assoc]

/-- Joining a cons peels off the head block. -/
theorem join_cons_eq (a : String) (l : List String) :
    String.join (a :: l) = a ++ String.join l := by
  simp only [String.join, List.foldl_cons]
  rw [foldl_append_join l ("" ++ a)]
  simp only [String.empty_append]
  rfl

/-- The report accumulation from any prefix string appends the joined
per-channel blocks. -/
theorem renderChannels_go : ∀ (m : List (TsChannel × List String)) (s : String),
    List.foldl (fun msg p => msg ++ channelBlock p) s m =
      s ++ String.join (m.map channelBlock) := by
  intro m
  induction m with
  | nil => intro s; simp [String.join]
  | cons p rest ih =>
    intro s
    simp only [List.foldl_cons, List.map_cons, join_cons_eq]
    rw [ih (s ++ channelBlock p)]
    simp [String.append_assoc]

/-- The report accumulation loop is the concatenation of the per-channel
blocks. -/
theorem renderChannels_eq (m : List (TsChannel × List String)) :
    renderChannels m = String.join (m.map channelBlock) := by
  have h := renderChannels_go m ""
  simpa [renderChannels] using h

/-- The keys after a `channelMap.set`: unchanged when the channel is already
present, appended otherwise. -/
theorem channelMapSet_keys (ch : TsChannel) (nick : String) :
    ∀ m : List (TsChannel × List String),
      (channelMapSet m ch nick).map Prod.fst =
        if ch ∈ m.map Prod.fst then m.map Prod.fst
        else m.map Prod.fst ++ [ch] := by
  intro m
  induction m with
  | nil => simp [channelMapSet]
  | cons p rest ih =>
    obtain ⟨c, ns⟩ := p
    by_cases hc : c = ch
    · subst hc
      simp [channelMapSet]
    · simp only [channelMapSet, hc, if_false, List.map_cons]
      rw [ih]
      by_cases hmem : ch ∈ rest.map Prod.fst
      · simp [hmem, List.mem_cons]
      · have hnc : ¬ ch = c := fun hh => hc hh.symm
        simp [hmem, List.mem_cons, hnc]

/-- A `channelMap.set` keeps the keys pairwise distinct. -/
theorem channelMapSet_keys_nodup (ch : TsChannel) (nick : String)
    (m : List (TsChannel × List String))
    (h : (m.map Prod.fst).Nodup) :
    ((channelMapSet m ch nick).map Prod.fst).Nodup := by
  rw [channelMapSet_keys]
  by_cases hmem : ch ∈ m.map Prod.fst
  · simpa [hmem] using h
  · simp only [hmem, if_false]
    simp [List.nodup_append, h, hmem]

/-- The channel map built by the client loop has pairwise-distinct keys:
one entry — hence one report line — per channel. -/
theorem buildChannelMap_keys_nodup (f : Nat → TsChannel) (clients : List TsClient) :
    ((buildChannelMap f clients).map Prod.fst).Nodup := by
  suffices h : ∀ (cs : List TsClient) (m : List (TsChannel × List String)),
      (m.map Prod.fst).Nodup →
      ((cs.foldl (fun m c => channelMapSet m (f c.cid) c.nickname) m).map
        Prod.fst).Nodup by
    exact h clients [] (by simp)
  intro cs
  induction cs with
  | nil => intro m hm; simpa using hm
  | cons c rest ih =>
    intro m hm
    exact ih _ (channelMapSet_keys_nodup (f c.cid) c.nickname m hm)

/-- Sorting the channel entries permutes them. -/
theorem sortChannels_perm (m : List (TsChannel × List String)) :
    List.Perm (sortChannels m) m :=
  List.mergeSort_perm m _

/-- Sorted output: the channel entries are in ascending display order. -/
theorem sortChannels_sorted (m : List (TsChannel × List String)) :
    (sortChannels m).Pairwise (fun a b => a.1.order ≤ b.1.order) := by
  have h := @List.sorted_mergeSort (TsChannel × List String)
    (fun a b => decide (a.1.order ≤ b.1.order))
    (fun a b c hab hbc => by
      simp only [decide_eq_true_eq] at *
      omega)
    (fun a b => by
      simp only [Bool.or_eq_true, decide_eq_true_eq]
      omega)
    m
  exact h.imp (fun hab => by simpa using hab)

/-- C8: the presence command's report.  An empty client listing yields
exactly the fixed nobody-is-here message; a nonempty one yields the
concatenation, over the channels sorted ascending by display order, of one
block per channel (the keys are pairwise distinct) — each block being the
channel name, `":\r\n"`, four spaces, the comma-joined nicknames and
`"\r\n"` (the content of `channelBlock`). -/
theorem presence_report_format (f : Nat → TsChannel) (clients : List TsClient) :
    (clients = [] → listClientsReport f clients = nobodyMsg) ∧
    (clients ≠ [] →
      listClientsReport f clients =
        String.join ((sortChannels (buildChannelMap f clients)).map channelBlock) ∧
      (sortChannels (buildChannelMap f clients)).Pairwise
        (fun a b => a.1.order ≤ b.1.order) ∧
      ((sortChannels (buildChannelMap f clients)).map Prod.fst).Nodup) := by
  constructor
  · intro h
    subst h
    rfl
  · intro h
    refine ⟨?_, sortChannels_sorted _, ?_⟩
    · have hne : clients.isEmpty = false := by
        cases clients with
        | nil => exact absurd rfl h
        | cons c cs => rfl
      simp only [listClientsReport, hne, Bool.false_eq_true, if_false]
      exact renderChannels_eq _
    · have hperm := (sortChannels_perm (buildChannelMap f clients)).map Prod.fst
      exact hperm.nodup_iff.mpr (buildChannelMap_keys_nodup f clients)

/-- Closed instance of `presence_report_format` on the spec's scenario
(Alice and Bob in Lobby, Carol in AFK) and on the empty listing. -/
theorem presence_report_format_witness :
    listClientsReport demoChannel [] = nobodyMsg ∧
    (listClientsReport demoChannel demoClients =
      String.join ((sortChannels (buildChannelMap demoChannel demoClients)).map
        channelBlock) ∧
     (sortChannels (buildChannelMap demoChannel demoClients)).Pairwise
       (fun a b => a.1.order ≤ b.1.order) ∧
     ((sortChannels (buildChannelMap demoChannel demoClients)).map
       Prod.fst).Nodup) :=
  ⟨(presence_report_format demoChannel []).1 rfl,
   (presence_report_format demoChannel demoClients).2 (by decide)⟩

/-- Evaluation of the spec's concrete scenario: peers in `Lobby` (order 0)
and `AFK` (order 1) render to the exact expected report. -/
theorem listClientsReport_demo :
    listClientsReport demoChannel demoClients =
      "Lobby:\r\n    Alice, Bob\r\nAFK:\r\n    Carol\r\n" := by
  simp [listClientsReport, demoClients, demoChannel, buildChannelMap,
    channelMapSet, sortChannels, renderChannels, channelBlock, nobodyMsg,
    List.mergeSort, String.intercalate, String.intercalate.go]


end Teamspeak
